import Mathlib

/-!
Verification of the result-normalization core of the BLAST online tool
(`src/app.py`), together with the error behaviour of the submission route
(`blast`) and the ownership check of the `results` route.

Modelling conventions:
* Biopython's parsed report objects are embedded as plain structures:
  a report is a list of `BlastRecord`s, each holding `alignments`, each
  alignment holding `hsps` (`src/app.py` lines 50–63).
* Python `float` fields (`hsp.score`, `hsp.expect`) are embedded as `Rat`:
  every float value is some rational, and `parse_blast_results` performs no
  arithmetic on them — it only copies them — so the carrier type is
  irrelevant to every property proved here.
* A Python dict literal is embedded as an association list
  `List (String × Value)` in insertion order, so that the dict's key names
  are themselves data (Python dicts preserve insertion order).
* The JSON round trip `json.dumps` / `json.loads` applied to the stored
  result is modelled as the identity on the entry list; none of the
  properties below depends on the serialized text.
-/

namespace BlastTool

/-- A Python value appearing in the result dicts: a string, an int, or a
float (embedded as its exact rational value). -/
inductive Value where
  | str : String → Value
  | int : Int → Value
  | num : Rat → Value
deriving DecidableEq, Repr

/-- One HSP (high-scoring pair) of a Biopython alignment, with exactly the
attributes `parse_blast_results` reads: `hsp.score`, `hsp.expect`,
`hsp.query_start`, `hsp.query_end`, `hsp.query`, `hsp.match`, `hsp.sbjct`.
The attribute `hsp.match` is named `hsp_match` here because `match` is a
Lean keyword. -/
structure HSP where
  score : Rat
  expect : Rat
  query_start : Int
  query_end : Int
  query : String
  hsp_match : String
  sbjct : String
deriving DecidableEq, Repr

/-- One Biopython alignment, with the attributes `parse_blast_results`
reads: `alignment.title`, `alignment.length`, `alignment.hsps`. -/
structure Alignment where
  title : String
  length : Int
  hsps : List HSP
deriving DecidableEq, Repr

/-- One Biopython BLAST record: `blast_record.alignments`. -/
structure BlastRecord where
  alignments : List Alignment
deriving DecidableEq, Repr

/-- The parsed alignment report: the ordered sequence of records yielded by
`NCBIXML.parse`. -/
abbrev AlignmentReport := List BlastRecord

/-- One output dict of `parse_blast_results`: a Python dict embedded as an
association list in insertion order. -/
abbrev MatchEntry := List (String × Value)

/-- The dict literal appended for each HSP at `src/app.py` lines 53–63,
keys in source order. -/
def mkEntry (alignment : Alignment) (hsp : HSP) : MatchEntry :=
  [("title", .str alignment.title),
   ("length", .int alignment.length),
   ("score", .num hsp.score),
   ("e_value", .num hsp.expect),
   ("query_start", .int hsp.query_start),
   ("query_end", .int hsp.query_end),
   ("qseq", .str hsp.query),
   ("match", .str hsp.hsp_match),
   ("hseq", .str hsp.sbjct)]

/-- The three nested loops of `parse_blast_results` (`src/app.py` lines
50–63): iterate over records, then alignments, then HSPs, appending one
dict per HSP to `parsed_results`. -/
def parse_records (records : AlignmentReport) : List MatchEntry :=
  records.flatMap fun blast_record =>
    blast_record.alignments.flatMap fun alignment =>
      alignment.hsps.map fun hsp => mkEntry alignment hsp

/-- The entries contributed by one alignment (the innermost loop). -/
def alignEntries (alignment : Alignment) : List MatchEntry :=
  alignment.hsps.map fun hsp => mkEntry alignment hsp

/-- The entries contributed by one record (the middle loop). -/
def recordEntries (blast_record : BlastRecord) : List MatchEntry :=
  blast_record.alignments.flatMap alignEntries

/-- The total HSP count of the report: Σᵢⱼ Hᵢⱼ. -/
def totalHspCount (records : AlignmentReport) : Nat :=
  (records.map fun r => (r.alignments.map fun a => a.hsps.length).sum).sum

/-- Entries contributed by one record: its total HSP count. -/
def recordHspCount (r : BlastRecord) : Nat :=
  (r.alignments.map fun a => a.hsps.length).sum

/-- The output position of the entry for HSP `k` of alignment `j` of record
`i`: all entries of earlier records, plus all entries of earlier alignments
of record `i`, plus `k`. -/
def entryPos (records : AlignmentReport) (i j k : Nat) : Nat :=
  ((records.take i).map recordHspCount).sum +
    (match records[i]? with
     | some r => ((r.alignments.take j).map fun a => a.hsps.length).sum
     | none => 0) + k

/-- The first HSP of the spec's end-to-end example (score 100). -/
def sampleHsp1 : HSP :=
  { score := 100, expect := 1/1000, query_start := 1, query_end := 8,
    query := "ACGTACGT", hsp_match := "||||||||", sbjct := "ACGTACGT" }

/-- The second HSP of the spec's end-to-end example (score 80). -/
def sampleHsp2 : HSP :=
  { score := 80, expect := 1/100, query_start := 11, query_end := 16,
    query := "ACGTAC", hsp_match := "||||||", sbjct := "ACGTAC" }

/-- The alignment of the spec's end-to-end example. -/
def sampleAlignment : Alignment :=
  { title := "Homo sapiens clone X", length := 500,
    hsps := [sampleHsp1, sampleHsp2] }

/-- The report of the spec's end-to-end example: 1 record, 1 alignment,
2 HSPs. -/
def sampleReport : AlignmentReport := [⟨[sampleAlignment]⟩]

/-- First alignment of the order witness report. -/
def sampleAlignmentA : Alignment :=
  { title := "subject A", length := 100, hsps := [sampleHsp1] }

/-- Second alignment of the order witness report. -/
def sampleAlignmentB : Alignment :=
  { title := "subject B", length := 200, hsps := [sampleHsp2] }

/-- A report with one record holding two alignments of one HSP each. -/
def sampleReport2 : AlignmentReport := [⟨[sampleAlignmentA, sampleAlignmentB]⟩]

/-- Modelled from the spec: the XML parser `NCBIXML.parse` is Biopython
library code, not part of this repository's sources. Per the spec, the
input is either "a parseable report in the service's native exchange
format" or malformed; a raw input is therefore one of the two. -/
inductive RawReport where
  | wellFormed (records : AlignmentReport)
  | malformed
deriving DecidableEq

/-- The parse failure raised on malformed input. -/
inductive ParseError where
  | malformedReport
deriving DecidableEq, Repr

/-- Modelled from the spec: `NCBIXML.parse` yields the report's records on
well-formed input and raises a `ParseError` on anything else ("malformed
input fails with a ParseError"). -/
def NCBIXML_parse (raw : RawReport) : Except ParseError AlignmentReport :=
  match raw with
  | .wellFormed records => .ok records
  | .malformed => .error .malformedReport

/-- `parse_blast_results` (`src/app.py` lines 45–65): parse the raw input,
then flatten the records with the three nested loops. A parse failure
propagates as the single terminal error; the locally accumulated
`parsed_results` list is discarded, never returned. -/
def parse_blast_results (raw : RawReport) : Except ParseError (List MatchEntry) :=
  match NCBIXML_parse raw with
  | .error e => .error e
  | .ok records => .ok (parse_records records)

/-- A row of the `User` table (`src/app.py` lines 22–25). -/
structure User where
  id : Int
  username : String
  password : String
deriving DecidableEq

/-- A row of the `Task` table (`src/app.py` lines 29–37); `result` holds
the stored entry list (JSON serialization modelled as the identity),
`none` standing for SQL NULL. -/
structure Task where
  taskname : String
  program : String
  database : String
  sequence : String
  result : Option (List MatchEntry)
  user_id : Int
deriving DecidableEq

/-- The failure of the outbound `NCBIWWW.qblast` call. -/
inductive NetworkError where
  | connectionFailed
deriving DecidableEq

/-- The POST form of the `blast` route: program, database, sequence. -/
structure BlastForm where
  program : String
  database : String
  sequence : String
deriving DecidableEq

/-- What the `blast` POST handler returns to the browser. -/
inductive BlastResponse where
  | redirectUserIndex (username : String)
  | renderBlastError
deriving DecidableEq

/-- The POST branch of the `blast` route (`src/app.py` lines 129–164). The
outcome of the outbound `NCBIWWW.qblast` call is request-scoped input
(`fetchOutcome`), as are the authenticated user and the timestamp-generated
task name. Any exception inside the `try` block — a network failure of the
fetch or a parse failure — skips `db.session.add`/`commit`, flashes an
error, and re-renders the form; the task row is appended and committed only
after both steps succeed. -/
def blast (store : List Task) (fetchOutcome : Except NetworkError RawReport)
    (currentUser : User) (formattedTaskname : String) (form : BlastForm) :
    List Task × BlastResponse :=
  match fetchOutcome with
  | .error _ => (store, .renderBlastError)
  | .ok raw =>
    match parse_blast_results raw with
    | .error _ => (store, .renderBlastError)
    | .ok parsed_results =>
      (store ++ [{ taskname := formattedTaskname, program := form.program,
                   database := form.database, sequence := form.sequence,
                   result := some parsed_results,
                   user_id := currentUser.id }],
       .redirectUserIndex currentUser.username)

/-- What the `results` route returns to the browser. -/
inductive ResultsResponse where
  | showResults (task : Task) (parsed_results : List MatchEntry)
  | notFound
  | redirectUserIndex (username : String)
deriving DecidableEq

/-- The `results` route (`src/app.py` lines 169–182): look up the user of
the URL's `username` (404 if absent), look up the first task with the
URL's `taskname` owned by that user (404 if absent), redirect with a
flash when the task's owner is not the authenticated user, and otherwise
render the stored result (an empty list when the column is NULL). -/
def results (users : List User) (tasks : List Task) (currentUser : User)
    (username taskname : String) : ResultsResponse :=
  match users.find? fun u => u.username == username with
  | none => .notFound
  | some user =>
    match tasks.find? fun t => t.taskname == taskname && t.user_id == user.id with
    | none => .notFound
    | some task =>
      if task.user_id ≠ currentUser.id then
        .redirectUserIndex currentUser.username
      else
        .showResults task (task.result.getD [])

/-- The field names the spec's data-model section assigns to `MatchEntry`
(spec §3), for comparison with the names the source actually writes. -/
def specFieldNames : List String :=
  ["title", "length", "score", "e_value", "query_start", "query_end",
   "query_sequence", "match_line", "subject_sequence"]

/-- The key names of one output dict, in insertion order. -/
def entryKeys (e : MatchEntry) : List String := e.map Prod.fst

/-- A stored user for the route-level witnesses. -/
def sampleUser : User := { id := 7, username := "alice", password := "pw" }

/-- A stored task owned by `sampleUser`, holding the example result. -/
def sampleTask : Task :=
  { taskname := "blastn_nt_20260101_000000", program := "blastn",
    database := "nt", sequence := "ACGTACGT",
    result := some (parse_records sampleReport), user_id := 7 }

/-- Claim C1: `parse_records` returns one entry per HSP: its output length
is the total HSP count Σᵢⱼ Hᵢⱼ of the report. -/
theorem parse_records_length (records : AlignmentReport) :
    (parse_records records).length = totalHspCount records := by
  simp [parse_records, totalHspCount, List.length_flatMap, Function.comp_def,
    List.length_map]

/-- Claim C7: a report with zero records yields the empty output sequence
(and, `parse_records` being a total function, no error). -/
theorem parse_records_nil : parse_records [] = [] := rfl

/-- Claim C10: `parse_records` is a homomorphism over record concatenation:
each record contributes its entries independently of the records around
it. -/
theorem parse_records_append (r1 r2 : AlignmentReport) :
    parse_records (r1 ++ r2) = parse_records r1 ++ parse_records r2 := by
  simp [parse_records, List.flatMap_append]

/-- Claim C3: every output entry comes from some HSP of some alignment of
some record of the input, and each of its nine fields is a verbatim copy of
the corresponding HSP/alignment field — no transformation, truncation, or
rounding. -/
theorem entry_fields_copied (records : AlignmentReport) (e : MatchEntry)
    (he : e ∈ parse_records records) :
    ∃ r ∈ records, ∃ a ∈ r.alignments, ∃ h ∈ a.hsps,
      e = mkEntry a h ∧
      e.lookup "title" = some (.str a.title) ∧
      e.lookup "length" = some (.int a.length) ∧
      e.lookup "score" = some (.num h.score) ∧
      e.lookup "e_value" = some (.num h.expect) ∧
      e.lookup "query_start" = some (.int h.query_start) ∧
      e.lookup "query_end" = some (.int h.query_end) ∧
      e.lookup "qseq" = some (.str h.query) ∧
      e.lookup "match" = some (.str h.hsp_match) ∧
      e.lookup "hseq" = some (.str h.sbjct) := by
  rcases List.mem_flatMap.mp he with ⟨r, hr, he1⟩
  rcases List.mem_flatMap.mp he1 with ⟨a, ha, he2⟩
  rcases List.mem_map.mp he2 with ⟨h, hh, rfl⟩
  exact ⟨r, hr, a, ha, h, hh, rfl, rfl, rfl, rfl, rfl, rfl, rfl, rfl, rfl, rfl⟩

/-- Witness for C3 at the example report and its first entry. -/
theorem entry_fields_copied_witness :
    ∃ r ∈ sampleReport, ∃ a ∈ r.alignments, ∃ h ∈ a.hsps,
      mkEntry sampleAlignment sampleHsp1 = mkEntry a h ∧
      (mkEntry sampleAlignment sampleHsp1).lookup "title" = some (.str a.title) ∧
      (mkEntry sampleAlignment sampleHsp1).lookup "length" = some (.int a.length) ∧
      (mkEntry sampleAlignment sampleHsp1).lookup "score" = some (.num h.score) ∧
      (mkEntry sampleAlignment sampleHsp1).lookup "e_value" = some (.num h.expect) ∧
      (mkEntry sampleAlignment sampleHsp1).lookup "query_start" = some (.int h.query_start) ∧
      (mkEntry sampleAlignment sampleHsp1).lookup "query_end" = some (.int h.query_end) ∧
      (mkEntry sampleAlignment sampleHsp1).lookup "qseq" = some (.str h.query) ∧
      (mkEntry sampleAlignment sampleHsp1).lookup "match" = some (.str h.hsp_match) ∧
      (mkEntry sampleAlignment sampleHsp1).lookup "hseq" = some (.str h.sbjct) :=
  entry_fields_copied sampleReport (mkEntry sampleAlignment sampleHsp1)
    (by simp [parse_records, sampleReport, sampleAlignment])

/-- Claim C9: on the spec's end-to-end example (1 record, 1 alignment with
title "Homo sapiens clone X" and length 500, 2 HSPs with scores 100 and
80), `parse_records` yields exactly 2 entries, both carrying that title and
length, with scores 100 then 80 in that order. -/
theorem parse_records_example :
    (parse_records sampleReport).length = 2 ∧
    (parse_records sampleReport).map (fun e => e.lookup "title") =
      [some (.str "Homo sapiens clone X"), some (.str "Homo sapiens clone X")] ∧
    (parse_records sampleReport).map (fun e => e.lookup "length") =
      [some (.int 500), some (.int 500)] ∧
    (parse_records sampleReport).map (fun e => e.lookup "score") =
      [some (.num 100), some (.num 80)] :=
  ⟨rfl, rfl, rfl, rfl⟩

theorem alignEntries_length (a : Alignment) :
    (alignEntries a).length = a.hsps.length := by
  simp [alignEntries]

theorem recordEntries_length (r : BlastRecord) :
    (recordEntries r).length = recordHspCount r := by
  simp [recordEntries, recordHspCount, List.length_flatMap, Function.comp_def,
    alignEntries_length]

theorem flatMap_getElem_eq {α β : Type} (f : α → List β) :
    ∀ (l : List α) (i : Nat) (x : α), l[i]? = some x →
      ∀ k, k < (f x).length →
      (l.flatMap f)[(((l.take i).map fun y => (f y).length).sum + k)]? = (f x)[k]?
  | [], i, x, hx, k, hk => by simp at hx
  | y :: t, 0, x, hx, k, hk => by
    obtain rfl : y = x := by simpa using hx
    simp only [List.flatMap_cons, List.take_zero, List.map_nil, List.sum_nil,
      Nat.zero_add]
    exact List.getElem?_append_left hk
  | y :: t, i + 1, x, hx, k, hk => by
    simp only [List.getElem?_cons_succ] at hx
    simp only [List.flatMap_cons, List.take_succ_cons, List.map_cons,
      List.sum_cons]
    rw [Nat.add_assoc, List.getElem?_append_right (Nat.le_add_right _ _),
      Nat.add_sub_cancel_left]
    exact flatMap_getElem_eq f t i x hx k hk

theorem sum_map_take_lt {α : Type} (g : α → Nat) :
    ∀ (l : List α) (j : Nat) (x : α), l[j]? = some x → ∀ k, k < g x →
      ((l.take j).map g).sum + k < (l.map g).sum
  | [], j, x, hx, k, hk => by simp at hx
  | y :: t, 0, x, hx, k, hk => by
    obtain rfl : y = x := by simpa using hx
    simp only [List.take_zero, List.map_nil, List.sum_nil, Nat.zero_add,
      List.map_cons, List.sum_cons]
    exact Nat.lt_of_lt_of_le hk (Nat.le_add_right _ _)
  | y :: t, j + 1, x, hx, k, hk => by
    simp only [List.getElem?_cons_succ] at hx
    simp only [List.take_succ_cons, List.map_cons, List.sum_cons,
      Nat.add_assoc]
    exact Nat.add_lt_add_left (sum_map_take_lt g t j x hx k hk) _

theorem sum_map_take_le {α : Type} (g : α → Nat) :
    ∀ (l : List α) (i j : Nat), i ≤ j →
      ((l.take i).map g).sum ≤ ((l.take j).map g).sum
  | [], _, _, _ => by simp
  | y :: t, 0, j, _ => by simp [Nat.zero_le]
  | y :: t, i + 1, j, hij => by
    obtain ⟨j', rfl⟩ : ∃ n, j = n + 1 := ⟨j - 1, by omega⟩
    simp only [List.take_succ_cons, List.map_cons, List.sum_cons]
    exact Nat.add_le_add_left (sum_map_take_le g t i j' (by omega)) _

theorem sum_map_take_succ {α : Type} (g : α → Nat) :
    ∀ (l : List α) (i : Nat) (x : α), l[i]? = some x →
      ((l.take (i + 1)).map g).sum = ((l.take i).map g).sum + g x
  | [], i, x, hx => by simp at hx
  | y :: t, 0, x, hx => by
    obtain rfl : y = x := by simpa using hx
    simp
  | y :: t, i + 1, x, hx => by
    simp only [List.getElem?_cons_succ] at hx
    simp only [List.take_succ_cons, List.map_cons, List.sum_cons,
      sum_map_take_succ g t i x hx, Nat.add_assoc]

theorem parse_records_getElem (records : AlignmentReport) (i j k : Nat)
    (r : BlastRecord) (a : Alignment) (h : HSP)
    (hr : records[i]? = some r) (ha : r.alignments[j]? = some a)
    (hh : a.hsps[k]? = some h) :
    (parse_records records)[entryPos records i j k]? = some (mkEntry a h) := by
  have hk : k < a.hsps.length := by
    by_contra hge
    rw [List.getElem?_eq_none (Nat.le_of_not_lt hge)] at hh
    exact Option.noConfusion hh
  have hGa : k < (alignEntries a).length := by
    rw [alignEntries_length]
    exact hk
  have hInner := flatMap_getElem_eq alignEntries r.alignments j a ha k hGa
  have hm : ((r.alignments.take j).map fun y => (alignEntries y).length).sum + k <
      (recordEntries r).length := by
    have hb := sum_map_take_lt (fun y => (alignEntries y).length)
      r.alignments j a ha k hGa
    have hlen : (recordEntries r).length =
        (r.alignments.map fun y => (alignEntries y).length).sum := by
      simp [recordEntries, List.length_flatMap, Function.comp_def]
    omega
  have hOuter := flatMap_getElem_eq recordEntries records i r hr _ hm
  have hfun1 : (fun y => (recordEntries y).length) = recordHspCount := by
    funext y
    exact recordEntries_length y
  have hfun2 : (fun y => (alignEntries y).length) =
      (fun a : Alignment => a.hsps.length) := by
    funext y
    exact alignEntries_length y
  have hpos : entryPos records i j k =
      ((records.take i).map fun y => (recordEntries y).length).sum +
        (((r.alignments.take j).map fun y => (alignEntries y).length).sum + k) := by
    simp only [entryPos, hr, hfun1, hfun2, Nat.add_assoc]
  rw [show parse_records records = records.flatMap recordEntries from rfl,
    hpos, hOuter]
  rw [show recordEntries r = r.alignments.flatMap alignEntries from rfl, hInner]
  rw [show alignEntries a = a.hsps.map fun hsp => mkEntry a hsp from rfl]
  simp [List.getElem?_map, hh]

/-- Claim C2: entries appear in input nesting order. For any two HSPs at
lexicographically ordered nesting positions (record, then alignment, then
HSP), each entry sits exactly at its canonical flattened position, and the
first one's position is strictly earlier — no reordering and no
deduplication. In particular any HSP of (record 0, alignment 0) precedes
every HSP of (record 0, alignment 1). -/
theorem parse_records_ordered (records : AlignmentReport)
    (i1 j1 k1 i2 j2 k2 : Nat) (r1 r2 : BlastRecord) (a1 a2 : Alignment)
    (h1 h2 : HSP)
    (hr1 : records[i1]? = some r1) (ha1 : r1.alignments[j1]? = some a1)
    (hh1 : a1.hsps[k1]? = some h1)
    (hr2 : records[i2]? = some r2) (ha2 : r2.alignments[j2]? = some a2)
    (hh2 : a2.hsps[k2]? = some h2)
    (hlex : i1 < i2 ∨ (i1 = i2 ∧ (j1 < j2 ∨ (j1 = j2 ∧ k1 < k2)))) :
    entryPos records i1 j1 k1 < entryPos records i2 j2 k2 ∧
    (parse_records records)[entryPos records i1 j1 k1]? = some (mkEntry a1 h1) ∧
    (parse_records records)[entryPos records i2 j2 k2]? = some (mkEntry a2 h2) := by
  refine ⟨?_, parse_records_getElem records i1 j1 k1 r1 a1 h1 hr1 ha1 hh1,
    parse_records_getElem records i2 j2 k2 r2 a2 h2 hr2 ha2 hh2⟩
  have hk1 : k1 < a1.hsps.length := by
    by_contra hge
    rw [List.getElem?_eq_none (Nat.le_of_not_lt hge)] at hh1
    exact Option.noConfusion hh1
  have hb1 : ((r1.alignments.take j1).map fun a => a.hsps.length).sum + k1 <
      (r1.alignments.map fun a => a.hsps.length).sum :=
    sum_map_take_lt (fun a => a.hsps.length) r1.alignments j1 a1 ha1 k1 hk1
  have hrc1 : recordHspCount r1 =
      (r1.alignments.map fun a => a.hsps.length).sum := rfl
  rcases hlex with hi | ⟨rfl, hjk⟩
  · have hA : ((records.take (i1 + 1)).map recordHspCount).sum ≤
        ((records.take i2).map recordHspCount).sum :=
      sum_map_take_le recordHspCount records (i1 + 1) i2 hi
    have hA1 : ((records.take (i1 + 1)).map recordHspCount).sum =
        ((records.take i1).map recordHspCount).sum + recordHspCount r1 :=
      sum_map_take_succ recordHspCount records i1 r1 hr1
    simp only [entryPos, hr1, hr2]
    omega
  · have hrr : r1 = r2 := by
      rw [hr1] at hr2
      exact Option.some.inj hr2
    subst hrr
    rcases hjk with hj | ⟨rfl, hk⟩
    · have hB : ((r1.alignments.take (j1 + 1)).map fun a => a.hsps.length).sum ≤
          ((r1.alignments.take j2).map fun a => a.hsps.length).sum :=
        sum_map_take_le (fun a => a.hsps.length) r1.alignments (j1 + 1) j2 hj
      have hB1 : ((r1.alignments.take (j1 + 1)).map fun a => a.hsps.length).sum =
          ((r1.alignments.take j1).map fun a => a.hsps.length).sum +
            a1.hsps.length :=
        sum_map_take_succ (fun a => a.hsps.length) r1.alignments j1 a1 ha1
      simp only [entryPos, hr1]
      omega
    · simp only [entryPos, hr1]
      omega

/-- Witness for C2: in `sampleReport2`, the HSP of (record 0, alignment 0)
precedes the HSP of (record 0, alignment 1). -/
theorem parse_records_ordered_witness :
    entryPos sampleReport2 0 0 0 < entryPos sampleReport2 0 1 0 ∧
    (parse_records sampleReport2)[entryPos sampleReport2 0 0 0]? =
      some (mkEntry sampleAlignmentA sampleHsp1) ∧
    (parse_records sampleReport2)[entryPos sampleReport2 0 1 0]? =
      some (mkEntry sampleAlignmentB sampleHsp2) :=
  parse_records_ordered sampleReport2 0 0 0 0 1 0
    ⟨[sampleAlignmentA, sampleAlignmentB]⟩ ⟨[sampleAlignmentA, sampleAlignmentB]⟩
    sampleAlignmentA sampleAlignmentB sampleHsp1 sampleHsp2
    rfl rfl rfl rfl rfl rfl
    (Or.inr ⟨rfl, Or.inl Nat.zero_lt_one⟩)

/-- Claim C4: on any input the XML parser rejects, `parse_blast_results`
fails with the single terminal `ParseError` and returns no entry list at
all — never a silently empty or partial one. -/
theorem parse_blast_results_malformed (raw : RawReport) (e : ParseError)
    (he : NCBIXML_parse raw = .error e) :
    parse_blast_results raw = .error e ∧
    ∀ es : List MatchEntry, parse_blast_results raw ≠ .ok es := by
  have hres : parse_blast_results raw = .error e := by
    simp [parse_blast_results, he]
  refine ⟨hres, fun es hok => ?_⟩
  rw [hres] at hok
  exact Except.noConfusion hok

/-- Witness for C4 at the malformed input. -/
theorem parse_blast_results_malformed_witness :
    parse_blast_results RawReport.malformed =
      .error ParseError.malformedReport ∧
    ∀ es : List MatchEntry,
      parse_blast_results RawReport.malformed ≠ .ok es :=
  parse_blast_results_malformed RawReport.malformed
    ParseError.malformedReport rfl

/-- Claim C5: atomicity of the submission flow on error: when the upstream
fetch fails with a `NetworkError`, or normalization fails with a
`ParseError`, the `blast` handler leaves the task store exactly as it was
before the request and reports the failure. -/
theorem blast_error_atomic (store : List Task)
    (fetchOutcome : Except NetworkError RawReport) (currentUser : User)
    (formattedTaskname : String) (form : BlastForm)
    (hfail : (∃ ne, fetchOutcome = .error ne) ∨
      (∃ raw e, fetchOutcome = .ok raw ∧ parse_blast_results raw = .error e)) :
    blast store fetchOutcome currentUser formattedTaskname form =
      (store, BlastResponse.renderBlastError) := by
  rcases hfail with ⟨ne, rfl⟩ | ⟨raw, e, rfl, hparse⟩
  · rfl
  · simp [blast, hparse]

/-- Witness for C5 at a failed fetch over an empty store. -/
theorem blast_error_atomic_witness :
    blast [] (.error NetworkError.connectionFailed) sampleUser
      "blastn_nt_20260101_000000"
      { program := "blastn", database := "nt", sequence := "ACGTACGT" } =
      ([], BlastResponse.renderBlastError) :=
  blast_error_atomic [] (.error NetworkError.connectionFailed) sampleUser
    "blastn_nt_20260101_000000"
    { program := "blastn", database := "nt", sequence := "ACGTACGT" }
    (Or.inl ⟨NetworkError.connectionFailed, rfl⟩)

/-- Claim C8: the `results` route never exposes a stored result to a user
other than the task's owner: whenever it renders a task's results, that
task's owner id equals the authenticated user's id. -/
theorem results_owner_only (users : List User) (tasks : List Task)
    (currentUser : User) (username taskname : String) (task : Task)
    (out : List MatchEntry)
    (hshow : results users tasks currentUser username taskname =
      .showResults task out) :
    task.user_id = currentUser.id := by
  unfold results at hshow
  rcases hu : users.find? fun u => u.username == username with _ | user
  · rw [hu] at hshow
    exact ResultsResponse.noConfusion hshow
  · rw [hu] at hshow
    dsimp only at hshow
    rcases ht : tasks.find? fun t =>
        t.taskname == taskname && t.user_id == user.id with _ | t
    · rw [ht] at hshow
      exact ResultsResponse.noConfusion hshow
    · rw [ht] at hshow
      dsimp only at hshow
      by_cases hown : t.user_id ≠ currentUser.id
      · rw [if_pos hown] at hshow
        exact ResultsResponse.noConfusion hshow
      · rw [if_neg hown] at hshow
        have heq := ResultsResponse.showResults.inj hshow
        have ht2 : t = task := heq.1
        subst ht2
        exact not_not.mp hown

/-- Witness for C8: the owner reading their own task. -/
theorem results_owner_only_witness : sampleTask.user_id = sampleUser.id :=
  results_owner_only [sampleUser] [sampleTask] sampleUser "alice"
    "blastn_nt_20260101_000000" sampleTask (parse_records sampleReport) rfl

/-- Counterexample to C6 as stated: the example report yields an entry
whose key list differs from the claim's field names — the aligned-triple
fields are keyed "qseq", "match" and "hseq", not "query_sequence",
"match_line" and "subject_sequence". -/
theorem entry_keys_counterexample :
    ∃ e ∈ parse_records sampleReport, entryKeys e ≠ specFieldNames := by
  refine ⟨mkEntry sampleAlignment sampleHsp1, ?_, ?_⟩
  · simp [parse_records, sampleReport, sampleAlignment]
  · decide

/-- Claim C6 (amended): every output entry is a flat dict whose keys are,
in order, "title", "length", "score", "e_value", "query_start",
"query_end", "qseq", "match" and "hseq" — the last three (not
"query_sequence"/"match_line"/"subject_sequence") naming the aligned
triple — with a string under "title", integers under "length",
"query_start" and "query_end", numeric values under "score" and "e_value",
and strings under "qseq", "match" and "hseq". -/
theorem entry_shape (records : AlignmentReport) (e : MatchEntry)
    (he : e ∈ parse_records records) :
    entryKeys e = ["title", "length", "score", "e_value", "query_start",
      "query_end", "qseq", "match", "hseq"] ∧
    (∃ s, e.lookup "title" = some (.str s)) ∧
    (∃ n, e.lookup "length" = some (.int n)) ∧
    (∃ q, e.lookup "score" = some (.num q)) ∧
    (∃ q, e.lookup "e_value" = some (.num q)) ∧
    (∃ n, e.lookup "query_start" = some (.int n)) ∧
    (∃ n, e.lookup "query_end" = some (.int n)) ∧
    (∃ s, e.lookup "qseq" = some (.str s)) ∧
    (∃ s, e.lookup "match" = some (.str s)) ∧
    (∃ s, e.lookup "hseq" = some (.str s)) := by
  rcases List.mem_flatMap.mp he with ⟨r, hr, he1⟩
  rcases List.mem_flatMap.mp he1 with ⟨a, ha, he2⟩
  rcases List.mem_map.mp he2 with ⟨h, hh, rfl⟩
  exact ⟨rfl, ⟨_, rfl⟩, ⟨_, rfl⟩, ⟨_, rfl⟩, ⟨_, rfl⟩, ⟨_, rfl⟩, ⟨_, rfl⟩,
    ⟨_, rfl⟩, ⟨_, rfl⟩, ⟨_, rfl⟩⟩

/-- Witness for the amended C6 at the example report's first entry. -/
theorem entry_shape_witness :
    entryKeys (mkEntry sampleAlignment sampleHsp1) = ["title", "length",
      "score", "e_value", "query_start", "query_end", "qseq", "match",
      "hseq"] ∧
    (∃ s, (mkEntry sampleAlignment sampleHsp1).lookup "title" = some (.str s)) ∧
    (∃ n, (mkEntry sampleAlignment sampleHsp1).lookup "length" = some (.int n)) ∧
    (∃ q, (mkEntry sampleAlignment sampleHsp1).lookup "score" = some (.num q)) ∧
    (∃ q, (mkEntry sampleAlignment sampleHsp1).lookup "e_value" = some (.num q)) ∧
    (∃ n, (mkEntry sampleAlignment sampleHsp1).lookup "query_start" = some (.int n)) ∧
    (∃ n, (mkEntry sampleAlignment sampleHsp1).lookup "query_end" = some (.int n)) ∧
    (∃ s, (mkEntry sampleAlignment sampleHsp1).lookup "qseq" = some (.str s)) ∧
    (∃ s, (mkEntry sampleAlignment sampleHsp1).lookup "match" = some (.str s)) ∧
    (∃ s, (mkEntry sampleAlignment sampleHsp1).lookup "hseq" = some (.str s)) :=
  entry_shape sampleReport (mkEntry sampleAlignment sampleHsp1)
    (by simp [parse_records, sampleReport, sampleAlignment])

end BlastTool
